import Mathlib

/-!
# Verification of the RTCSwitchServer room registry

A shallow embedding of `src/main.go`: an in-memory room registry with three
operations (create, destroy, list), a random RTC-backend selector and a
room-type normalizer.  The HTTP/JSON transport layer is stripped away; the
handlers' core logic is embedded as pure functions over an explicit store
state, with the random draw (`rand.Intn(10)`) and the wall clock
(`time.Now().Unix()`) passed in as parameters.
-/

/-- `RTCType` from `main.go`: the underlying RTC service type.  In Go this is
a string type with exactly the two constants `RTC_TRTC = "TRTC"` and
`RTC_AGORA = "Agora"`; only these two values are ever constructed. -/
inductive RTCType where
  | TRTC
  | Agora
deriving DecidableEq, Repr

/-- `RoomType` from `main.go`: the room mode, a string type with the two
constants `RoomLive = "Live"` and `RoomAudio = "Audio"`. -/
inductive RoomType where
  | Live
  | Audio
deriving DecidableEq, Repr

/-- `Room` from `main.go`: the structure returned to clients.
`CreateTime` is an `int64` Unix timestamp, embedded as `Int`. -/
structure Room where
  roomID : String
  ownerUserID : String
  createTime : Int
  roomType : RoomType
  rtcType : RTCType
deriving DecidableEq, Repr

/-- `CreateRoomRequest` from `main.go`: the decoded JSON body of
`POST /room/create`. -/
structure CreateRoomRequest where
  userID : String
  roomType : String
deriving DecidableEq, Repr

/-- The registry store `rooms : map[string]Room`, embedded as an association
list from room id to room record.  Go map keys are unique; insertion below
replaces an existing entry in place, so key uniqueness is preserved. -/
abbrev Store := List (String × Room)

/-- Lookup of `rooms[id]` (the comma-ok form `v, ok := rooms[id]`). -/
def Store.lookup : Store → String → Option Room
  | [], _ => none
  | (k, v) :: rest, id => if k = id then some v else Store.lookup rest id

/-- The Go map assignment `rooms[id] = room`: an unconditional upsert that
replaces the entry with key `id` when present and adds it otherwise. -/
def Store.insert : Store → String → Room → Store
  | [], id, r => [(id, r)]
  | (k, v) :: rest, id, r =>
      if k = id then (id, r) :: rest else (k, v) :: Store.insert rest id r

/-- The Go builtin `delete(rooms, id)`: removes the entry with key `id`. -/
def Store.erase : Store → String → Store
  | [], _ => []
  | (k, v) :: rest, id =>
      if k = id then Store.erase rest id else (k, v) :: Store.erase rest id

/-- `chooseRTC` from `main.go`, with the result `u` of `rand.Intn(10)` made
an explicit parameter.  The Go `switch` is embedded case for case,
including the `default` branch returning `RTC_TRTC`. -/
def chooseRTC (u : Nat) : RTCType :=
  match u with
  | 0 | 1 | 2 | 3 | 4 | 5 => RTCType.TRTC
  | 6 | 7 | 8 | 9 => RTCType.Agora
  | _ => RTCType.TRTC

/-- The enumerated (non-default) cases of the `switch` in `chooseRTC`:
`some` on the draws an explicit `case` matches, `none` where only the
`default` branch would fire.  Used to show the `default` is dead code on
the domain of `rand.Intn(10)`. -/
def chooseRTCEnumerated (u : Nat) : Option RTCType :=
  match u with
  | 0 | 1 | 2 | 3 | 4 | 5 => some RTCType.TRTC
  | 6 | 7 | 8 | 9 => some RTCType.Agora
  | _ => none

/-- `generateRoomID` from `main.go`. -/
def generateRoomID (userid : String) : String :=
  "rm_" ++ userid

/-- Go's `strings.ToLower` as used in `createRoomHandler`: lower-cases the
string character by character. -/
def goToLower (s : String) : String :=
  ⟨s.data.map Char.toLower⟩

/-- The room-type normalization inlined in `createRoomHandler`:
`rt := RoomLive; if strings.ToLower(req.RoomType) == "audio" { rt = RoomAudio }`. -/
def normalizeRoomType (s : String) : RoomType :=
  if goToLower s = "audio" then RoomType.Audio else RoomType.Live

/-- The core of `createRoomHandler` after a successful JSON decode:
normalizes the room type, derives the id, selects the backend, builds the
`Room` with the current time `now`, upserts it into the store and returns
it.  `draw` is the value of `rand.Intn(10)` inside `chooseRTC`. -/
def createRoom (s : Store) (req : CreateRoomRequest) (now : Int) (draw : Nat) :
    Room × Store :=
  let rt := normalizeRoomType req.roomType
  let id := generateRoomID req.userID
  let rtc := chooseRTC draw
  let room : Room :=
    { roomID := id, ownerUserID := req.userID, createTime := now,
      roomType := rt, rtcType := rtc }
  (room, s.insert id room)

/-- Outcome of `destroyRoomHandler`: either HTTP 404 ("room not found") or
the JSON acknowledgement `map[string]string{"result": "ok"}`. -/
inductive DestroyOutcome where
  | notFound
  | ok (ack : List (String × String))
deriving DecidableEq, Repr

/-- The core of `destroyRoomHandler` after a successful JSON decode: if the
id is absent the store is untouched and 404 is returned; otherwise the
entry is deleted and `{"result": "ok"}` is returned. -/
def destroyRoom (s : Store) (roomId : String) : DestroyOutcome × Store :=
  match s.lookup roomId with
  | none => (DestroyOutcome.notFound, s)
  | some _ => (DestroyOutcome.ok [("result", "ok")], s.erase roomId)

/-- The comparator order used by `listRoomsHandler`'s
`sort.Slice(list, func(i, j) { return list[i].CreateTime > list[j].CreateTime })`:
`a` sorts before `b` when `a`'s creation time is at least `b`'s, giving
descending creation time. -/
def roomGE (a b : Room) : Prop := b.createTime ≤ a.createTime

instance : DecidableRel roomGE :=
  fun a b => inferInstanceAs (Decidable (b.createTime ≤ a.createTime))

instance : IsTotal Room roomGE :=
  ⟨fun a b => le_total b.createTime a.createTime⟩

instance : IsTrans Room roomGE :=
  ⟨fun _ _ _ hab hbc => le_trans hbc hab⟩

/-- The core of `listRoomsHandler`: snapshot the map's values and sort by
`CreateTime` descending. -/
def listRooms (s : Store) : List Room :=
  List.insertionSort roomGE (s.map Prod.snd)

/-- Models the behaviour of Go's `encoding/json` decoder on the
`CreateRoomRequest` struct: a field absent from the JSON object leaves the
struct field at its zero value, the empty string. -/
def decodeCreateRoomRequest (useridField roomTypeField : Option String) :
    CreateRoomRequest :=
  { userID := useridField.getD "", roomType := roomTypeField.getD "" }

/-- One client-visible operation against the registry, with the
environment inputs (clock, random draw) made explicit. -/
inductive Op where
  | create (userid roomTypeStr : String) (now : Int) (draw : Nat)
  | destroy (roomId : String)
  | list

/-- The store after one operation.  `list` reads but never mutates. -/
def applyOp (s : Store) : Op → Store
  | Op.create u rt t d => (createRoom s ⟨u, rt⟩ t d).2
  | Op.destroy id => (destroyRoom s id).2
  | Op.list => s

/-- Every entry of the store is keyed by its room's id, and that id is the
fixed prefix `"rm_"` followed by the owner's user id. -/
def WellFormedStore (s : Store) : Prop :=
  ∀ e ∈ s, e.1 = e.2.roomID ∧ e.2.roomID = "rm_" ++ e.2.ownerUserID

/-! ## Store lemmas -/

theorem Store.lookup_insert_self (s : Store) (id : String) (r : Room) :
    (s.insert id r).lookup id = some r := by
  induction s with
  | nil => simp [Store.insert, Store.lookup]
  | cons e rest ih =>
      obtain ⟨k, v⟩ := e
      by_cases h : k = id
      · simp [Store.insert, h, Store.lookup]
      · simp [Store.insert, h, Store.lookup, ih]

theorem Store.lookup_insert_ne (s : Store) (id k : String) (r : Room)
    (h : k ≠ id) : (s.insert id r).lookup k = s.lookup k := by
  induction s with
  | nil => simp [Store.insert, Store.lookup, Ne.symm h]
  | cons e rest ih =>
      obtain ⟨k', v⟩ := e
      by_cases hk : k' = id
      · subst hk
        simp [Store.insert, Store.lookup, Ne.symm h]
      · by_cases hk2 : k' = k
        · subst hk2
          simp [Store.insert, hk, Store.lookup]
        · simp [Store.insert, hk, Store.lookup, hk2, ih]

theorem Store.lookup_erase_self (s : Store) (id : String) :
    (s.erase id).lookup id = none := by
  induction s with
  | nil => simp [Store.erase, Store.lookup]
  | cons e rest ih =>
      obtain ⟨k, v⟩ := e
      by_cases h : k = id
      · simp [Store.erase, h, ih]
      · simp [Store.erase, h, Store.lookup, ih]

theorem Store.lookup_erase_ne (s : Store) (id k : String) (h : k ≠ id) :
    (s.erase id).lookup k = s.lookup k := by
  induction s with
  | nil => simp [Store.erase, Store.lookup]
  | cons e rest ih =>
      obtain ⟨k', v⟩ := e
      by_cases hk : k' = id
      · subst hk
        simp [Store.erase, Store.lookup, Ne.symm h, ih]
      · by_cases hk2 : k' = k
        · subst hk2
          simp [Store.erase, hk, Store.lookup]
        · simp [Store.erase, hk, Store.lookup, hk2, ih]

theorem Store.mem_insert (s : Store) (id : String) (r : Room)
    (x : String × Room) (hx : x ∈ s.insert id r) : x = (id, r) ∨ x ∈ s := by
  induction s with
  | nil =>
      simp only [Store.insert, List.mem_singleton] at hx
      exact Or.inl hx
  | cons e rest ih =>
      obtain ⟨k, v⟩ := e
      by_cases h : k = id
      · simp only [Store.insert, if_pos h, List.mem_cons] at hx
        rcases hx with hx | hx
        · exact Or.inl hx
        · exact Or.inr (List.mem_cons_of_mem _ hx)
      · simp only [Store.insert, if_neg h, List.mem_cons] at hx
        rcases hx with hx | hx
        · exact Or.inr (by simp [hx])
        · rcases ih hx with hx' | hx'
          · exact Or.inl hx'
          · exact Or.inr (List.mem_cons_of_mem _ hx')

theorem Store.mem_of_mem_erase (s : Store) (id : String)
    (x : String × Room) (hx : x ∈ s.erase id) : x ∈ s := by
  induction s with
  | nil => simp [Store.erase] at hx
  | cons e rest ih =>
      obtain ⟨k, v⟩ := e
      by_cases h : k = id
      · simp only [Store.erase, if_pos h] at hx
        exact List.mem_cons_of_mem _ (ih hx)
      · simp only [Store.erase, if_neg h, List.mem_cons] at hx
        rcases hx with hx | hx
        · simp [hx]
        · exact List.mem_cons_of_mem _ (ih hx)

theorem Store.snd_mem_values_insert (s : Store) (id : String) (r : Room) :
    r ∈ (s.insert id r).map Prod.snd := by
  induction s with
  | nil => simp [Store.insert]
  | cons e rest ih =>
      obtain ⟨k, v⟩ := e
      by_cases h : k = id
      · simp [Store.insert, h]
      · simp only [Store.insert, if_neg h, List.map_cons, List.mem_cons]
        exact Or.inr ih

theorem Store.not_mem_keys_countP_zero (s : Store) (id : String)
    (h : id ∉ s.map Prod.fst) :
    s.countP (fun e => decide (e.1 = id)) = 0 := by
  induction s with
  | nil => simp
  | cons e rest ih =>
      obtain ⟨k, v⟩ := e
      simp only [List.map_cons, List.mem_cons, not_or] at h
      have hk : ¬ (k = id) := fun hc => h.1 hc.symm
      simp [List.countP_cons, hk, ih h.2]

theorem Store.keys_insert_nodup (s : Store) (id : String) (r : Room)
    (h : (s.map Prod.fst).Nodup) : ((s.insert id r).map Prod.fst).Nodup := by
  induction s with
  | nil => simp [Store.insert]
  | cons e rest ih =>
      obtain ⟨k, v⟩ := e
      simp only [List.map_cons, List.nodup_cons] at h
      by_cases hk : k = id
      · subst hk
        simpa [Store.insert, List.nodup_cons] using h
      · have hmem : k ∉ (Store.insert rest id r).map Prod.fst := by
          intro hc
          rcases List.mem_map.mp hc with ⟨x, hx, hfst⟩
          rcases Store.mem_insert rest id r x hx with hx' | hx'
          · exact hk (by rw [hx'] at hfst; exact hfst.symm)
          · exact h.1 (hfst ▸ List.mem_map_of_mem Prod.fst hx')
        simp only [Store.insert, if_neg hk, List.map_cons, List.nodup_cons]
        exact ⟨hmem, ih h.2⟩

theorem Store.countP_insert_of_nodup (s : Store) (id : String) (r : Room)
    (h : (s.map Prod.fst).Nodup) :
    (s.insert id r).countP (fun e => decide (e.1 = id)) = 1 := by
  induction s with
  | nil => simp [Store.insert]
  | cons e rest ih =>
      obtain ⟨k, v⟩ := e
      simp only [List.map_cons, List.nodup_cons] at h
      by_cases hk : k = id
      · subst hk
        have : rest.countP (fun e => decide (e.1 = k)) = 0 :=
          Store.not_mem_keys_countP_zero rest k h.1
        simp [Store.insert, List.countP_cons, this]
      · simp [Store.insert, hk, List.countP_cons, ih h.2]

/-! ## Claim theorems -/

/-- **C1**: the RTC backend selection maps every draw in [0,9] so that draws
0–5 yield TRTC and draws 6–9 yield Agora; consequently the created room's
`rtc_type` is one of {TRTC, Agora} and nothing else. -/
theorem chooseRTC_split_and_create_rtcType (u : Nat) (hu : u < 10)
    (s : Store) (req : CreateRoomRequest) (now : Int) :
    (u ≤ 5 → chooseRTC u = RTCType.TRTC)
    ∧ (6 ≤ u → chooseRTC u = RTCType.Agora)
    ∧ (createRoom s req now u).1.rtcType = chooseRTC u
    ∧ ((createRoom s req now u).1.rtcType = RTCType.TRTC ∨
       (createRoom s req now u).1.rtcType = RTCType.Agora) := by
  refine ⟨?_, ?_, rfl, ?_⟩
  · intro h
    interval_cases u <;> rfl
  · intro h
    interval_cases u <;> rfl
  · show chooseRTC u = RTCType.TRTC ∨ chooseRTC u = RTCType.Agora
    cases h : chooseRTC u
    · exact Or.inl rfl
    · exact Or.inr rfl

/-- Witness for **C1** at the concrete draw 3 with a concrete request. -/
theorem chooseRTC_split_witness :
    (3 ≤ 5 → chooseRTC 3 = RTCType.TRTC)
    ∧ (6 ≤ 3 → chooseRTC 3 = RTCType.Agora)
    ∧ (createRoom [] ⟨"5", "Live"⟩ 100 3).1.rtcType = chooseRTC 3
    ∧ ((createRoom [] ⟨"5", "Live"⟩ 100 3).1.rtcType = RTCType.TRTC ∨
       (createRoom [] ⟨"5", "Live"⟩ 100 3).1.rtcType = RTCType.Agora) :=
  chooseRTC_split_and_create_rtcType 3 (by decide) [] ⟨"5", "Live"⟩ 100

/-- **C3**: normalization yields Audio exactly when the input matches
"audio" case-insensitively, and Live for every other string; it never
fails (it is total, always one of the two room types). -/
theorem normalizeRoomType_spec (s : String) :
    (normalizeRoomType s = RoomType.Audio ↔ goToLower s = "audio")
    ∧ (normalizeRoomType s = RoomType.Audio ∨ normalizeRoomType s = RoomType.Live)
    ∧ normalizeRoomType "AUDIO" = RoomType.Audio
    ∧ normalizeRoomType "" = RoomType.Live
    ∧ normalizeRoomType "foo" = RoomType.Live := by
  refine ⟨?_, ?_, by decide, by decide, by decide⟩
  · unfold normalizeRoomType
    by_cases h : goToLower s = "audio" <;> simp [h]
  · unfold normalizeRoomType
    by_cases h : goToLower s = "audio" <;> simp [h]

/-- **C7**: the room id is the fixed prefix "rm_" concatenated with the
userid verbatim, and the owner is stored verbatim; concretely, userid "5"
gives room_id "rm_5" and owner_userid "5". -/
theorem roomID_derivation (u : String) (s : Store) (rt : String)
    (t : Int) (d : Nat) :
    generateRoomID u = "rm_" ++ u
    ∧ (createRoom s ⟨u, rt⟩ t d).1.roomID = "rm_" ++ u
    ∧ (createRoom s ⟨u, rt⟩ t d).1.ownerUserID = u
    ∧ (createRoom s ⟨"5", "Live"⟩ t d).1.roomID = "rm_5"
    ∧ (createRoom s ⟨"5", "Live"⟩ t d).1.ownerUserID = "5" :=
  ⟨rfl, rfl, rfl, rfl, rfl⟩

/-- **C9**: for every draw in [0,9] one of the enumerated switch cases of
`chooseRTC` matches (and yields the function's result), so the `default`
branch is unreachable on the domain of `rand.Intn(10)`. -/
theorem chooseRTC_default_unreachable (u : Nat) (hu : u < 10) :
    (chooseRTCEnumerated u).isSome = true
    ∧ chooseRTCEnumerated u = some (chooseRTC u) := by
  interval_cases u <;> exact ⟨rfl, rfl⟩

/-- Witness for **C9** at the concrete draw 9. -/
theorem chooseRTC_default_unreachable_witness :
    (chooseRTCEnumerated 9).isSome = true
    ∧ chooseRTCEnumerated 9 = some (chooseRTC 9) :=
  chooseRTC_default_unreachable 9 (by decide)

/-- **C10**: a create request decoding with both fields missing yields
empty strings, and the create then succeeds, storing a room with
room_id "rm_", owner_userid "" and room_type Live. -/
theorem create_missing_fields (s : Store) (t : Int) (d : Nat) :
    decodeCreateRoomRequest none none = ⟨"", ""⟩
    ∧ (createRoom s (decodeCreateRoomRequest none none) t d).1.roomID = "rm_"
    ∧ (createRoom s (decodeCreateRoomRequest none none) t d).1.ownerUserID = ""
    ∧ (createRoom s (decodeCreateRoomRequest none none) t d).1.roomType = RoomType.Live
    ∧ (createRoom s (decodeCreateRoomRequest none none) t d).2.lookup "rm_" =
        some (createRoom s (decodeCreateRoomRequest none none) t d).1 := by
  refine ⟨rfl, rfl, rfl, ?_, ?_⟩
  · show normalizeRoomType "" = RoomType.Live
    decide
  · exact Store.lookup_insert_self s "rm_" _

/-- A sample room record used to instantiate hypotheses at concrete inputs. -/
def sampleRoom : Room :=
  { roomID := "rm_5", ownerUserID := "5", createTime := 100,
    roomType := RoomType.Live, rtcType := RTCType.TRTC }

/-- **C2**: destroy signals not_found iff the id is absent (leaving the
store unchanged), otherwise removes exactly that room and acknowledges
with `{"result": "ok"}`; a second destroy of the same id then yields
not_found. -/
theorem destroyRoom_spec (s : Store) (id : String) :
    ((destroyRoom s id).1 = DestroyOutcome.notFound ↔ s.lookup id = none)
    ∧ (s.lookup id = none → destroyRoom s id = (DestroyOutcome.notFound, s))
    ∧ (∀ r, s.lookup id = some r →
        (destroyRoom s id).1 = DestroyOutcome.ok [("result", "ok")]
        ∧ (destroyRoom s id).2.lookup id = none
        ∧ (∀ k, k ≠ id → (destroyRoom s id).2.lookup k = s.lookup k)
        ∧ (destroyRoom (destroyRoom s id).2 id).1 = DestroyOutcome.notFound) := by
  refine ⟨?_, ?_, ?_⟩
  · cases h : s.lookup id <;> simp [destroyRoom, h]
  · intro h
    simp [destroyRoom, h]
  · intro r h
    refine ⟨by simp [destroyRoom, h], ?_, ?_, ?_⟩
    · simp [destroyRoom, h, Store.lookup_erase_self]
    · intro k hk
      simp [destroyRoom, h, Store.lookup_erase_ne s id k hk]
    · simp [destroyRoom, h, Store.lookup_erase_self]

/-- Witness for **C2**: destroying "rm_5" in a one-room store succeeds,
destroying it again reports not_found, and destroying a never-created id
reports not_found. -/
theorem destroyRoom_spec_witness :
    (destroyRoom [("rm_5", sampleRoom)] "rm_5").1 =
        DestroyOutcome.ok [("result", "ok")]
    ∧ (destroyRoom (destroyRoom [("rm_5", sampleRoom)] "rm_5").2 "rm_5").1 =
        DestroyOutcome.notFound
    ∧ (destroyRoom ([] : Store) "never").1 = DestroyOutcome.notFound := by
  have h := (destroyRoom_spec [("rm_5", sampleRoom)] "rm_5").2.2 sampleRoom (by decide)
  have h0 := (destroyRoom_spec ([] : Store) "never").1.mpr (by decide)
  exact ⟨h.1, h.2.2.2, h0⟩

/-- Rooms with creation times 1, 2 and 3, used to instantiate the list
ordering property at concrete inputs. -/
def roomT1 : Room :=
  { roomID := "rm_1", ownerUserID := "1", createTime := 1,
    roomType := RoomType.Live, rtcType := RTCType.TRTC }

def roomT2 : Room :=
  { roomID := "rm_2", ownerUserID := "2", createTime := 2,
    roomType := RoomType.Audio, rtcType := RTCType.Agora }

def roomT3 : Room :=
  { roomID := "rm_3", ownerUserID := "3", createTime := 3,
    roomType := RoomType.Live, rtcType := RTCType.Agora }

/-- **C4**: list returns exactly the stored rooms (a permutation of the
store's values) with adjacent creation times non-increasing; three rooms
with distinct times t1 < t2 < t3 come back in the order t3, t2, t1. -/
theorem listRooms_spec (s : Store) (k1 k2 k3 : String) (r1 r2 r3 : Room)
    (h12 : r1.createTime < r2.createTime)
    (h23 : r2.createTime < r3.createTime) :
    (listRooms s).Perm (s.map Prod.snd)
    ∧ (listRooms s).Chain' (fun a b => b.createTime ≤ a.createTime)
    ∧ listRooms [(k1, r1), (k2, r2), (k3, r3)] = [r3, r2, r1] := by
  refine ⟨List.perm_insertionSort roomGE (s.map Prod.snd), ?_, ?_⟩
  · exact (List.sorted_insertionSort roomGE (s.map Prod.snd)).chain'
  · have n23 : ¬ (r3.createTime ≤ r2.createTime) := not_le.mpr h23
    have n13 : ¬ (r3.createTime ≤ r1.createTime) :=
      not_le.mpr (lt_trans h12 h23)
    have n12 : ¬ (r2.createTime ≤ r1.createTime) := not_le.mpr h12
    simp [listRooms, List.insertionSort, List.orderedInsert, roomGE,
      n23, n13, n12]

/-- Witness for **C4** with rooms created at times 1 < 2 < 3. -/
theorem listRooms_spec_witness :
    (listRooms []).Perm (([] : Store).map Prod.snd)
    ∧ (listRooms []).Chain' (fun a b => b.createTime ≤ a.createTime)
    ∧ listRooms [("rm_1", roomT1), ("rm_2", roomT2), ("rm_3", roomT3)] =
        [roomT3, roomT2, roomT1] :=
  listRooms_spec [] "rm_1" "rm_2" "rm_3" roomT1 roomT2 roomT3
    (by decide) (by decide)

/-- **C5**: two creates with the same userid derive the same room_id and
the second upsert overwrites the first: afterwards the store holds exactly
one entry under that id, carrying the last create's fields. -/
theorem create_upsert_collision (s : Store) (u rt1 rt2 : String)
    (t1 t2 : Int) (d1 d2 : Nat) (hnd : (s.map Prod.fst).Nodup) :
    (createRoom s ⟨u, rt1⟩ t1 d1).1.roomID =
      (createRoom (createRoom s ⟨u, rt1⟩ t1 d1).2 ⟨u, rt2⟩ t2 d2).1.roomID
    ∧ (createRoom (createRoom s ⟨u, rt1⟩ t1 d1).2 ⟨u, rt2⟩ t2 d2).2.lookup
        (generateRoomID u) =
        some (createRoom (createRoom s ⟨u, rt1⟩ t1 d1).2 ⟨u, rt2⟩ t2 d2).1
    ∧ (createRoom (createRoom s ⟨u, rt1⟩ t1 d1).2 ⟨u, rt2⟩ t2 d2).2.countP
        (fun e => decide (e.1 = generateRoomID u)) = 1
    ∧ (createRoom (createRoom s ⟨u, rt1⟩ t1 d1).2 ⟨u, rt2⟩ t2 d2).1.createTime = t2
    ∧ (createRoom (createRoom s ⟨u, rt1⟩ t1 d1).2 ⟨u, rt2⟩ t2 d2).1.roomType =
        normalizeRoomType rt2
    ∧ (createRoom (createRoom s ⟨u, rt1⟩ t1 d1).2 ⟨u, rt2⟩ t2 d2).1.rtcType =
        chooseRTC d2 := by
  refine ⟨rfl, ?_, ?_, rfl, rfl, rfl⟩
  · exact Store.lookup_insert_self _ _ _
  · exact Store.countP_insert_of_nodup _ _ _
      (Store.keys_insert_nodup s (generateRoomID u) _ hnd)

/-- Witness for **C5**: two creates with userid "5" starting from the
empty store. -/
theorem create_upsert_collision_witness :
    (createRoom [] ⟨"5", "Live"⟩ 1 0).1.roomID =
      (createRoom (createRoom [] ⟨"5", "Live"⟩ 1 0).2 ⟨"5", "audio"⟩ 2 7).1.roomID
    ∧ (createRoom (createRoom [] ⟨"5", "Live"⟩ 1 0).2 ⟨"5", "audio"⟩ 2 7).2.lookup
        (generateRoomID "5") =
        some (createRoom (createRoom [] ⟨"5", "Live"⟩ 1 0).2 ⟨"5", "audio"⟩ 2 7).1
    ∧ (createRoom (createRoom [] ⟨"5", "Live"⟩ 1 0).2 ⟨"5", "audio"⟩ 2 7).2.countP
        (fun e => decide (e.1 = generateRoomID "5")) = 1
    ∧ (createRoom (createRoom [] ⟨"5", "Live"⟩ 1 0).2 ⟨"5", "audio"⟩ 2 7).1.createTime = 2
    ∧ (createRoom (createRoom [] ⟨"5", "Live"⟩ 1 0).2 ⟨"5", "audio"⟩ 2 7).1.roomType =
        normalizeRoomType "audio"
    ∧ (createRoom (createRoom [] ⟨"5", "Live"⟩ 1 0).2 ⟨"5", "audio"⟩ 2 7).1.rtcType =
        chooseRTC 7 :=
  create_upsert_collision [] "5" "Live" "audio" 1 2 0 7 (by simp)

/-- **C6**: round-trip; a create followed immediately by a list yields a
listing containing an entry equal to the created room in all five fields. -/
theorem create_then_list_roundtrip (s : Store) (req : CreateRoomRequest)
    (now : Int) (d : Nat) :
    ∃ e ∈ listRooms (createRoom s req now d).2,
      e.roomID = (createRoom s req now d).1.roomID
      ∧ e.ownerUserID = (createRoom s req now d).1.ownerUserID
      ∧ e.createTime = (createRoom s req now d).1.createTime
      ∧ e.roomType = (createRoom s req now d).1.roomType
      ∧ e.rtcType = (createRoom s req now d).1.rtcType := by
  refine ⟨(createRoom s req now d).1, ?_, rfl, rfl, rfl, rfl, rfl⟩
  have hmem : (createRoom s req now d).1 ∈
      ((createRoom s req now d).2).map Prod.snd :=
    Store.snd_mem_values_insert s _ _
  exact ((List.perm_insertionSort roomGE _).mem_iff).mpr hmem

/-- **C8**: starting from any well-formed store (in particular the empty
one), every sequence of create/destroy/list operations preserves the
invariant that each entry's key equals its room's id, which is "rm_"
followed by the owner's userid. -/
theorem store_invariant_ops (ops : List Op) (s : Store)
    (h : WellFormedStore s) : WellFormedStore (ops.foldl applyOp s) := by
  induction ops generalizing s with
  | nil => exact h
  | cons op rest ih =>
      refine ih _ ?_
      cases op with
      | create u rt t d =>
          intro e he
          rcases Store.mem_insert s (generateRoomID u) _ e he with he' | he'
          · subst he'
            exact ⟨rfl, rfl⟩
          · exact h e he'
      | destroy id =>
          cases hl : s.lookup id with
          | none =>
              intro e he
              refine h e ?_
              simpa [applyOp, destroyRoom, hl] using he
          | some r =>
              intro e he
              refine h e (Store.mem_of_mem_erase s id e ?_)
              simpa [applyOp, destroyRoom, hl] using he
      | list => exact h

/-- Witness for **C8**: a create, a destroy and a list starting from the
empty store leave the invariant intact. -/
theorem store_invariant_ops_witness :
    WellFormedStore
      ([Op.create "5" "Live" 1 0, Op.destroy "rm_5", Op.list].foldl applyOp []) :=
  store_invariant_ops [Op.create "5" "Live" 1 0, Op.destroy "rm_5", Op.list] []
    (fun e he => absurd he (List.not_mem_nil e))
